import Mathlib

/-!
Verification of the stream-selection, language-filtering and finalize logic of
the jellyfin-scripts repository (convert_to_ac3.py, download_trailers.py),
shallowly embedded in Lean 4.
-/

/-- Parsed audio stream descriptor, as built by `get_stream_info` in
`convert_to_ac3.py` (index, codec name lowercased, normalized language,
lowercased title, bitrate in kbps with 0 for unknown, channel count). -/
structure AudioStream where
  index : Nat
  codec : String
  language : String
  title : String
  bitrate : Nat
  channels : Nat
deriving DecidableEq

/-- Parsed subtitle stream descriptor (index and normalized language). -/
structure SubtitleStream where
  index : Nat
  language : String
deriving DecidableEq

/-- Python's `str.lower()` restricted to ASCII, applied characterwise (the
language tags and titles the scripts compare are ASCII). -/
def lower_string (s : String) : String :=
  String.mk (s.data.map Char.toLower)

/-- Language normalization of `get_stream_info`: the probed tag defaults to
"unknown" when absent, is lowercased, and an empty or "und" value is replaced
by "unknown". -/
def normalize_language (tag : Option String) : String :=
  let lang := lower_string (tag.getD "unknown")
  if lang = "" ∨ lang = "und" then "unknown" else lang

/-- Substring search on character lists: does the list contain `needle` as a
contiguous sublist (Python's `needle in hay`)? -/
def chars_contain (needle : List Char) : List Char → Bool
  | [] => needle.isEmpty
  | c :: rest => needle.isPrefixOf (c :: rest) || chars_contain needle rest

/-- Python's substring containment `needle in hay` on strings. -/
def str_contains (hay needle : String) : Bool :=
  chars_contain needle.data hay.data

/-- `is_commentary_track` from `convert_to_ac3.py`: the (lowercased) title
contains "commentary", "comentário", "comentario" or "director". -/
def is_commentary_track (s : AudioStream) : Bool :=
  let title := lower_string s.title
  str_contains title "commentary" || str_contains title "comentário" ||
    str_contains title "comentario" || str_contains title "director"

/-- Membership test `s['language'] in self.desired_languages`. -/
def stream_matches (desired : List String) (lang : String) : Bool :=
  desired.contains lang

/-- `filter_streams_by_language`: keep only streams whose language is in the
desired-language allow-list (applied to subtitle streams in `process_file`). -/
def filter_streams_by_language (desired : List String) (streams : List SubtitleStream) :
    List SubtitleStream :=
  streams.filter (fun s => stream_matches desired s.language)

/-- `known_desired_langs = self.desired_languages - {'unknown', 'und'}` from
`process_file`. -/
def known_desired_langs (desired : List String) : List String :=
  desired.filter (fun l => ¬ (l = "unknown" ∨ l = "und"))

/-- `has_known_desired_lang`: some audio stream has a language in the
allow-list minus {"unknown", "und"}. -/
def has_known_desired_lang (desired : List String) (streams : List AudioStream) : Bool :=
  streams.any (fun s => (known_desired_langs desired).contains s.language)

/-- The audio-filtering step of `process_file` (lines 188-206): when some
stream has a known desired language, keep exactly the streams whose language
is allow-listed or that are commentary tracks; otherwise leave the list
untouched. -/
def filter_audio_streams (desired : List String) (streams : List AudioStream) :
    List AudioStream :=
  if has_known_desired_lang desired streams then
    streams.filter (fun s => stream_matches desired s.language || is_commentary_track s)
  else
    streams

/-- The language-filtering stage of `process_file` (lines 188-208): audio is
filtered conditionally, subtitles unconditionally. -/
def language_filter_stage (desired : List String) (audio : List AudioStream)
    (subs : List SubtitleStream) : List AudioStream × List SubtitleStream :=
  (filter_audio_streams desired audio, filter_streams_by_language desired subs)

/-- The sort key `(s['channels'], s['bitrate'])` used by `max(...)` in
`process_file`. -/
def stream_key (s : AudioStream) : Nat × Nat :=
  (s.channels, s.bitrate)

/-- Strict lexicographic comparison of two sort keys (Python tuple `<`). -/
def keyLt (a b : Nat × Nat) : Bool :=
  a.1 < b.1 || (a.1 = b.1 && a.2 < b.2)

/-- Non-strict lexicographic comparison of two sort keys (Python tuple `<=`). -/
def keyLe (a b : Nat × Nat) : Bool :=
  a.1 < b.1 || (a.1 = b.1 && a.2 ≤ b.2)

/-- One step of Python's `max` with key: replace the accumulator only when the
candidate's key is strictly greater, so the first maximal element wins. -/
def better (b s : AudioStream) : AudioStream :=
  if keyLt (stream_key b) (stream_key s) then s else b

/-- Python's `max(streams, key=lambda s: (s['channels'], s['bitrate']))`,
returning `none` on the empty list (where Python would raise). -/
def max_by_key : List AudioStream → Option AudioStream
  | [] => none
  | x :: xs => some (xs.foldl better x)

/-- Membership in the target codec family: `s['codec'] in ('ac3', 'eac3')`. -/
def ac3_family (s : AudioStream) : Bool :=
  s.codec = "ac3" || s.codec = "eac3"

/-- The candidate pool used by best-stream selection in `process_file`:
non-commentary streams, restricted to existing AC3/E-AC3 streams whenever any
such stream exists. -/
def selection_pool (streams : List AudioStream) : List AudioStream :=
  let non_commentary := streams.filter (fun s => ! is_commentary_track s)
  let ac3_streams := non_commentary.filter ac3_family
  if ac3_streams.isEmpty then non_commentary else ac3_streams

/-- Best-stream selection of `process_file` (lines 227-244): maximum of the
candidate pool by (channels, bitrate); `none` when only commentary tracks (or
nothing) remain. -/
def select_best_stream (streams : List AudioStream) : Option AudioStream :=
  max_by_key (selection_pool streams)

/-- The channel-count to bitrate table computed (for display) in
`process_file` lines 250-263. -/
def target_bitrate (channels : Nat) : Nat :=
  if channels ≥ 7 then 1536
  else if channels ≥ 6 then 768
  else if channels ≥ 3 then 640
  else 448

/-- The channel-count to (bitrate kbps, target channel count) table actually
applied by `_process_convert_single_to_eac3` (lines 540-557): 7.1+ input is
encoded at 768 kbps and downmixed to 6 channels. -/
def eac3_conversion_params (channels : Nat) : Nat × Nat :=
  if channels ≥ 7 then (768, 6)
  else if channels ≥ 6 then (768, 6)
  else if channels ≥ 3 then (640, channels)
  else (448, 2)

/-- Raw ffprobe stream tags (`tags` object): optional language and title. -/
structure RawTags where
  language : Option String
  title : Option String
deriving DecidableEq

/-- Raw ffprobe audio stream entry, as read from the JSON document. -/
structure RawAudioStream where
  index : Nat
  codec_name : String
  tags : RawTags
  bit_rate : Option Nat
  channels : Nat
deriving DecidableEq

/-- Translation of one raw ffprobe entry into the parsed descriptor, as done
in the `for stream in audio_data.get('streams', [])` loop of
`get_stream_info`. -/
def parse_audio_stream (r : RawAudioStream) : AudioStream :=
  { index := r.index
    codec := lower_string r.codec_name
    language := normalize_language r.tags.language
    title := lower_string (r.tags.title.getD "")
    bitrate := match r.bit_rate with
      | some b => b / 1000
      | none => 0
    channels := r.channels }

/-- The audio part of `get_stream_info`: a ffprobe JSON document that failed
to parse (`none`) degrades to the empty document `{}`, whose stream list is
empty; otherwise each raw entry is parsed. -/
def get_audio_streams (doc : Option (List RawAudioStream)) : List AudioStream :=
  match doc with
  | none => []
  | some streams => streams.map parse_audio_stream

/-- The duration part of `get_stream_info`: a format document that failed
to parse (outer `none`) has no duration field, and a missing field (inner
`none`) defaults to 0. -/
def get_duration (doc : Option (Option Nat)) : Nat :=
  match doc with
  | none => 0
  | some d => d.getD 0

/-- Outcome of one observed transcoder run: its exit code, and whether the
output file exists and its size in bytes. -/
structure FfmpegRun where
  returncode : Int
  output_exists : Bool
  output_size : Nat
deriving DecidableEq

/-- Success test of `_run_ffmpeg_with_progress` (lines 479-504): the run
succeeded iff the exit code is 0, the output file exists, and it is not
empty. -/
def run_ffmpeg_result (r : FfmpegRun) : Bool :=
  if r.returncode = 0 then
    if ! r.output_exists then false
    else if r.output_size = 0 then false
    else true
  else false

/-- `_process_keep_single_stream` (lines 519-532) seen as a pair (returned
boolean, whether `_finalize_output` was invoked): finalize runs only when the
transcoder run succeeded, otherwise the function returns false immediately. -/
def process_keep_single_stream_result (r : FfmpegRun) (finalize_ok : Bool) : Bool × Bool :=
  if run_ffmpeg_result r then (finalize_ok, true) else (false, false)

/-- What a file-system slot (a path) holds in the model of
`_finalize_output`. -/
inductive FileContent
  | originalVideo
  | convertedVideo
  | truncatedCopy
  | absent
deriving DecidableEq

/-- File-system state of the three paths `_finalize_output` touches: the
original path, the converted output path, and the timestamped backup path. -/
structure FsState where
  original : FileContent
  output : FileContent
  backup : FileContent
deriving DecidableEq

/-- Injected failure point for `_finalize_output`: no failure, failure of the
original-to-backup rename, failure of the output-to-original rename (same
directory path), failure during the chunked copy (temp directory path), or
failure of the temp-file unlink. -/
inductive FailPoint
  | noFail
  | atBackupRename
  | atOutputRename
  | atCopy
  | atUnlink
deriving DecidableEq

/-- The `except` handler of `_finalize_output`: restore the backup over the
original path only when the backup exists and the original path is empty. -/
def attempt_restore (st : FsState) : FsState :=
  if st.backup ≠ FileContent.absent ∧ st.original = FileContent.absent then
    { st with original := st.backup, backup := FileContent.absent }
  else st

/-- `_finalize_output` (lines 835-902) as a state transformer returning the
final file-system state and the boolean result. `use_temp_copy` selects the
temp-directory chunked-copy path over the same-directory rename path; `fp`
injects a failure. In the copy path, opening the destination for writing
creates a file at the original path even when the copy then fails. -/
def finalize_output (use_temp_copy : Bool) (fp : FailPoint) (st : FsState) : FsState × Bool :=
  if use_temp_copy then
    if fp = FailPoint.atBackupRename then (attempt_restore st, false)
    else
      let st1 := if st.original ≠ FileContent.absent then
          { st with backup := st.original, original := FileContent.absent }
        else st
      if fp = FailPoint.atCopy then
        (attempt_restore { st1 with original := FileContent.truncatedCopy }, false)
      else
        let st2 := { st1 with original := st1.output }
        if fp = FailPoint.atUnlink then (attempt_restore st2, false)
        else ({ st2 with output := FileContent.absent }, true)
  else
    if fp = FailPoint.atBackupRename then (attempt_restore st, false)
    else
      let st1 := { st with backup := st.original, original := FileContent.absent }
      if fp = FailPoint.atOutputRename then (attempt_restore st1, false)
      else ({ st1 with original := st1.output, output := FileContent.absent }, true)

/-- The file-system state at entry to `_finalize_output`: the original file
in place, the converted file at the output path, no backup. -/
def finalize_init : FsState :=
  { original := FileContent.originalVideo
    output := FileContent.convertedVideo
    backup := FileContent.absent }

/-- One video entry of a TMDb `videos` response (`type`, `site`, `key`). -/
structure TmdbVideo where
  vtype : Option String
  site : Option String
  key : Option String
deriving DecidableEq

/-- One movie entry of a TMDb search response (its `id`, absent when the
JSON has none). -/
structure TmdbMovie where
  id : Option Nat
deriving DecidableEq

/-- The remote TMDb API as observed by one run of `get_movie_trailer_url`:
the search response for the queried title and the videos response per movie
id; `none` models a failed request or unparseable response (the `except`
path). -/
structure TmdbWorld where
  search_results : Option (List TmdbMovie)
  videos : Nat → Option (List TmdbVideo)

/-- The selection predicate of `get_movie_trailer_url`: the video's type is
"Trailer", its site is "YouTube", and it has a (truthy, hence non-empty)
key. -/
def is_youtube_trailer (v : TmdbVideo) : Bool :=
  v.vtype = some "Trailer" && v.site = some "YouTube" &&
    (match v.key with
     | some k => ¬ k = ""
     | none => false)

/-- `get_movie_trailer_url` from `download_trailers.py` (lines 64-89): take
the first search result's id (a falsy id aborts), fetch its videos, and
return the YouTube URL of the first YouTube-hosted trailer with a key;
`none` on any failed request, empty result list, or missing trailer. -/
def get_movie_trailer_url (w : TmdbWorld) : Option String :=
  match w.search_results with
  | none => none
  | some [] => none
  | some (m :: _) =>
    match m.id with
    | none => none
    | some mid =>
      if mid = 0 then none
      else
        match w.videos mid with
        | none => none
        | some vids =>
          match vids.find? is_youtube_trailer with
          | some v => some ("https://www.youtube.com/watch?v=" ++ v.key.getD "")
          | none => none

/-- The action `process_file` decides on for a file: skip it (return false
without running the transcoder), keep the best AC3/E-AC3 stream plus
commentary tracks by stream copy, or convert the best stream to E-AC3 while
copying commentary tracks. -/
inductive ProcessAction
  | skip
  | keepSingle (streams_to_keep : List AudioStream) (subs : List SubtitleStream)
  | convertToEac3 (best : AudioStream) (commentary : List AudioStream)
      (subs : List SubtitleStream)
deriving DecidableEq

/-- Whether a decided action invokes the external transcoder. -/
def action_invokes_transcoder : ProcessAction → Bool
  | ProcessAction.skip => false
  | _ => true

/-- The decision logic of `process_file` (lines 162-297) up to the choice of
ffmpeg invocation: language filtering, best-stream selection, the
needs-processing test, and the dispatch between stream copy and E-AC3
conversion. -/
def process_file_plan (desired : List String) (audio : List AudioStream)
    (subs : List SubtitleStream) : ProcessAction :=
  if audio.isEmpty then ProcessAction.skip
  else
    let original_audio_count := audio.length
    let original_sub_count := subs.length
    let audio1 := filter_audio_streams desired audio
    let subs1 := filter_streams_by_language desired subs
    let needs_language_filtering :=
      audio1.length < original_audio_count || subs1.length < original_sub_count
    if audio1.isEmpty then ProcessAction.skip
    else
      match select_best_stream audio1 with
      | none => ProcessAction.skip
      | some best =>
        let is_already_good := ac3_family best
        let all_ac3 := audio1.all ac3_family
        let needs_processing :=
          needs_language_filtering || ! is_already_good ||
            (decide (audio1.length > 1) && ! all_ac3)
        if ! needs_processing then ProcessAction.skip
        else
          let commentary_tracks := audio1.filter is_commentary_track
          if is_already_good then
            ProcessAction.keepSingle (best :: commentary_tracks) subs1
          else
            ProcessAction.convertToEac3 best commentary_tracks subs1

/-- An audio stream in a language outside the default allow-list, used as a
concrete witness input. -/
def french_dts_stream : AudioStream :=
  { index := 1, codec := "dts", language := "fre", title := "", bitrate := 1509, channels := 6 }

/-- The primary English stream of the C3/C5 witness scenario. -/
def main_eng_stream : AudioStream :=
  { index := 0, codec := "dts", language := "eng", title := "", bitrate := 1509, channels := 6 }

/-- A Japanese director-commentary track, witness input for C3. -/
def commentary_stream : AudioStream :=
  { index := 2, codec := "aac", language := "jpn", title := "director commentary",
    bitrate := 128, channels := 2 }

/-- An existing English AC3 stream, witness input for C5. -/
def eng_ac3_stream : AudioStream :=
  { index := 1, codec := "ac3", language := "eng", title := "", bitrate := 640, channels := 6 }

/-- A teaser video entry, skipped by trailer selection in the C9 witness. -/
def tmdb_teaser : TmdbVideo :=
  { vtype := some "Teaser", site := some "YouTube", key := some "t0" }

/-- The first YouTube trailer entry of the C9 witness. -/
def tmdb_trailer : TmdbVideo :=
  { vtype := some "Trailer", site := some "YouTube", key := some "abc123" }

/-- The videos response of the C9 witness world. -/
def tmdb_vids : List TmdbVideo := [tmdb_teaser, tmdb_trailer]

/-- The C9 witness world: one search result with id 42 whose videos list has
a teaser followed by a YouTube trailer. -/
def tmdb_example : TmdbWorld :=
  { search_results := some [{ id := some 42 }]
    videos := fun mid => if mid = 42 then some tmdb_vids else none }

/-- The combined use `process_file` makes of the audio and format prober
queries: the decided action (from the audio streams) and the duration (used
only for progress display, never for the decision). -/
def process_file_outcome (desired : List String) (audioDoc : Option (List RawAudioStream))
    (fmtDoc : Option (Option Nat)) (subs : List SubtitleStream) : ProcessAction × Nat :=
  (process_file_plan desired (get_audio_streams audioDoc) subs, get_duration fmtDoc)

/-- A raw probed English AAC surround stream, input to the C8 scenario. -/
def raw_aac_eng : RawAudioStream :=
  { index := 1, codec_name := "AAC", tags := { language := some "eng", title := none }
    bit_rate := some 256000, channels := 6 }

theorem keyLe_refl (a : Nat × Nat) : keyLe a a = true := by
  simp [keyLe]

theorem keyLt_eq_false_iff (a b : Nat × Nat) : keyLt a b = false ↔ keyLe b a = true := by
  simp only [keyLt, keyLe, Bool.or_eq_false_iff, Bool.or_eq_true, Bool.and_eq_false_iff,
    Bool.and_eq_true, decide_eq_false_iff_not, decide_eq_true_eq]
  omega

theorem keyLt_imp_keyLe (a b : Nat × Nat) (h : keyLt a b = true) : keyLe a b = true := by
  simp only [keyLt, keyLe, Bool.or_eq_true, Bool.and_eq_true, decide_eq_true_eq] at *
  omega

theorem keyLe_trans (a b c : Nat × Nat) (hab : keyLe a b = true) (hbc : keyLe b c = true) :
    keyLe a c = true := by
  simp only [keyLe, Bool.or_eq_true, Bool.and_eq_true, decide_eq_true_eq] at *
  omega

theorem better_cases (b x : AudioStream) : better b x = b ∨ better b x = x := by
  unfold better
  split
  · exact Or.inr rfl
  · exact Or.inl rfl

theorem keyLe_better_left (b x : AudioStream) :
    keyLe (stream_key b) (stream_key (better b x)) = true := by
  unfold better
  split
  · next h => exact keyLt_imp_keyLe _ _ h
  · exact keyLe_refl _

theorem keyLe_better_right (b x : AudioStream) :
    keyLe (stream_key x) (stream_key (better b x)) = true := by
  unfold better
  split
  · exact keyLe_refl _
  · next h => exact (keyLt_eq_false_iff _ _).mp (Bool.of_not_eq_true h)

theorem foldl_better_spec (xs : List AudioStream) (b : AudioStream) :
    (xs.foldl better b = b ∨ xs.foldl better b ∈ xs) ∧
    keyLe (stream_key b) (stream_key (xs.foldl better b)) = true ∧
    ∀ s ∈ xs, keyLe (stream_key s) (stream_key (xs.foldl better b)) = true := by
  induction xs generalizing b with
  | nil => exact ⟨Or.inl rfl, keyLe_refl _, by simp⟩
  | cons x xs ih =>
    obtain ⟨hmem, hge, hall⟩ := ih (better b x)
    have hfold : (x :: xs).foldl better b = xs.foldl better (better b x) := rfl
    refine ⟨?_, ?_, ?_⟩
    · rw [hfold]
      rcases hmem with h | h
      · rcases better_cases b x with hb | hb
        · exact Or.inl (h.trans hb)
        · exact Or.inr (by rw [h, hb]; exact List.mem_cons_self x xs)
      · exact Or.inr (List.mem_cons_of_mem x h)
    · rw [hfold]
      exact keyLe_trans _ _ _ (keyLe_better_left b x) hge
    · intro s hs
      rw [hfold]
      rcases List.mem_cons.mp hs with h | h
      · subst h
        exact keyLe_trans _ _ _ (keyLe_better_right b s) hge
      · exact hall s h

theorem max_by_key_mem (l : List AudioStream) (r : AudioStream)
    (h : max_by_key l = some r) : r ∈ l := by
  cases l with
  | nil => simp [max_by_key] at h
  | cons x xs =>
    simp only [max_by_key, Option.some.injEq] at h
    rcases (foldl_better_spec xs x).1 with hm | hm
    · rw [← h, hm]; exact List.mem_cons_self x xs
    · rw [← h]; exact List.mem_cons_of_mem x hm

theorem max_by_key_maximal (l : List AudioStream) (r : AudioStream)
    (h : max_by_key l = some r) :
    ∀ s ∈ l, keyLe (stream_key s) (stream_key r) = true := by
  cases l with
  | nil => simp [max_by_key] at h
  | cons x xs =>
    simp only [max_by_key, Option.some.injEq] at h
    intro s hs
    rcases List.mem_cons.mp hs with h' | h'
    · subst h'; rw [← h]; exact (foldl_better_spec xs s).2.1
    · rw [← h]; exact (foldl_better_spec xs x).2.2 s h'

theorem max_by_key_isSome (l : List AudioStream) (h : l ≠ []) :
    ∃ r, max_by_key l = some r := by
  cases l with
  | nil => exact absurd rfl h
  | cons x xs => exact ⟨xs.foldl better x, rfl⟩

theorem selection_pool_subset_non_commentary (streams : List AudioStream) :
    ∀ r ∈ selection_pool streams,
      r ∈ streams.filter (fun s => ! is_commentary_track s) := by
  intro r h
  simp only [selection_pool] at h
  split at h
  · exact h
  · exact List.mem_filter.mp h |>.1

theorem selection_pool_not_commentary (streams : List AudioStream) (r : AudioStream)
    (h : r ∈ selection_pool streams) : is_commentary_track r = false := by
  have := selection_pool_subset_non_commentary streams r h
  have h2 := (List.mem_filter.mp this).2
  simpa using h2

/-- C1 (counterexample): at channel count 7 the bitrate bucket actually
applied by the conversion routine `_process_convert_single_to_eac3` is
768 kbps, not the 1536 kbps the claim states. -/
theorem c1_applied_bitrate_counterexample :
    (eac3_conversion_params 7).1 = 768 ∧ ¬ (eac3_conversion_params 7).1 = 1536 := by
  decide

/-- C1 (amended): the bitrate bucket applied when converting is monotonic in
the channel count and maps 2 to 448 kbps, 3 to 640 kbps, 6 to 768 kbps and
7 to 768 kbps with a downmix to 6 channels; only the display-only table of
`process_file` maps 7 or more channels to 1536 kbps. -/
theorem c1_bitrate_bucket_amended (c c' : Nat) (h : c ≤ c') :
    (eac3_conversion_params c).1 ≤ (eac3_conversion_params c').1 ∧
    (eac3_conversion_params 2).1 = 448 ∧
    (eac3_conversion_params 3).1 = 640 ∧
    (eac3_conversion_params 6).1 = 768 ∧
    (eac3_conversion_params 7).1 = 768 ∧
    (eac3_conversion_params 7).2 = 6 ∧
    target_bitrate 2 = 448 ∧
    target_bitrate 3 = 640 ∧
    target_bitrate 6 = 768 ∧
    target_bitrate 7 = 1536 := by
  refine ⟨?_, by decide, by decide, by decide, by decide, by decide,
    by decide, by decide, by decide, by decide⟩
  simp only [eac3_conversion_params]
  split_ifs <;> simp <;> omega

/-- C1 witness: the amended bucket theorem applied at channel counts 2 and 6. -/
theorem c1_bitrate_bucket_amended_witness :
    (eac3_conversion_params 2).1 ≤ (eac3_conversion_params 6).1 ∧
    (eac3_conversion_params 2).1 = 448 ∧
    (eac3_conversion_params 3).1 = 640 ∧
    (eac3_conversion_params 6).1 = 768 ∧
    (eac3_conversion_params 7).1 = 768 ∧
    (eac3_conversion_params 7).2 = 6 ∧
    target_bitrate 2 = 448 ∧
    target_bitrate 3 = 640 ∧
    target_bitrate 6 = 768 ∧
    target_bitrate 7 = 1536 :=
  c1_bitrate_bucket_amended 2 6 (by decide)

/-- C2: when no audio stream has a language in the allow-list minus
{"unknown", "und"}, the audio-filtering step of `process_file` leaves the
stream list unchanged, elements and count alike. -/
theorem c2_no_known_language_skips_audio_filter (desired : List String)
    (audio : List AudioStream)
    (h : ∀ s ∈ audio, (known_desired_langs desired).contains s.language = false) :
    filter_audio_streams desired audio = audio ∧
    (filter_audio_streams desired audio).length = audio.length := by
  have hk : has_known_desired_lang desired audio = false := by
    simp only [has_known_desired_lang, List.any_eq_false]
    intro s hs
    simpa using h s hs
  have heq : filter_audio_streams desired audio = audio := by
    unfold filter_audio_streams
    simp [hk]
  exact ⟨heq, by rw [heq]⟩

/-- C2 witness: a single French DTS stream with the default allow-list is
passed on unchanged. -/
theorem c2_no_known_language_witness :
    filter_audio_streams ["eng", "por", "unknown", "und"] [french_dts_stream] =
      [french_dts_stream] ∧
    (filter_audio_streams ["eng", "por", "unknown", "und"] [french_dts_stream]).length =
      [french_dts_stream].length :=
  c2_no_known_language_skips_audio_filter ["eng", "por", "unknown", "und"]
    [french_dts_stream] (by decide)

/-- C6: a nonzero transcoder exit code, a missing output file, or an empty
output file each make `_run_ffmpeg_with_progress` report failure, and then
`_process_keep_single_stream` returns false without ever invoking the
finalize/replace step. -/
theorem c6_transcoder_failure_no_finalize (r : FfmpegRun)
    (h : r.returncode ≠ 0 ∨ r.output_exists = false ∨ r.output_size = 0) :
    run_ffmpeg_result r = false ∧
    ∀ finalize_ok, process_keep_single_stream_result r finalize_ok = (false, false) := by
  have hr : run_ffmpeg_result r = false := by
    unfold run_ffmpeg_result
    rcases h with h | h | h <;> split_ifs <;> simp_all
  refine ⟨hr, fun finalize_ok => ?_⟩
  unfold process_keep_single_stream_result
  simp [hr]

/-- C6 witness: a run with exit code 1 whose output file exists and is
non-empty still fails and never reaches finalize. -/
theorem c6_transcoder_failure_witness :
    run_ffmpeg_result ⟨1, true, 4096⟩ = false ∧
    ∀ finalize_ok, process_keep_single_stream_result ⟨1, true, 4096⟩ finalize_ok =
      (false, false) :=
  c6_transcoder_failure_no_finalize ⟨1, true, 4096⟩ (by decide)

/-- C7 (counterexample): when `_finalize_output` takes the temp-directory
copy path and the chunked copy fails, the run fails but the backup file is
still present and the original path holds a truncated copy rather than the
restored original — contradicting the claim that every finalize failure
restores the original and removes the backup. -/
theorem c7_finalize_counterexample :
    (finalize_output true FailPoint.atCopy finalize_init).2 = false ∧
    (finalize_output true FailPoint.atCopy finalize_init).1.backup ≠ FileContent.absent ∧
    (finalize_output true FailPoint.atCopy finalize_init).1.original ≠
      FileContent.originalVideo := by
  decide

/-- C7 (amended): a successful finalize leaves the converted file at the
original path, exactly the renamed original as backup, and no leftover output
file; a failed finalize on the same-directory rename path leaves the original
restored and the backup absent. On the temp-directory copy path a failure
after the backup rename can leave the backup in place. -/
theorem c7_finalize_amended (use_temp_copy : Bool) (fp : FailPoint) :
    ((finalize_output use_temp_copy fp finalize_init).2 = true →
      (finalize_output use_temp_copy fp finalize_init).1 =
        { original := FileContent.convertedVideo, output := FileContent.absent,
          backup := FileContent.originalVideo }) ∧
    (use_temp_copy = false →
      (finalize_output use_temp_copy fp finalize_init).2 = false →
      (finalize_output use_temp_copy fp finalize_init).1.original =
        FileContent.originalVideo ∧
      (finalize_output use_temp_copy fp finalize_init).1.backup = FileContent.absent) := by
  cases use_temp_copy <;> cases fp <;> decide

/-- C7 witness: the amended theorem applied to the same-directory path with
the output-to-original rename failing. -/
theorem c7_finalize_amended_witness :
    (finalize_output false FailPoint.atOutputRename finalize_init).1.original =
      FileContent.originalVideo ∧
    (finalize_output false FailPoint.atOutputRename finalize_init).1.backup =
      FileContent.absent :=
  (c7_finalize_amended false FailPoint.atOutputRename).2 rfl (by decide)

/-- C8 (counterexample): a malformed format/duration prober query degrades to
duration 0, yet with intact audio metadata the file is not skipped — the plan
still invokes the transcoder, contradicting the claim that every malformed
prober invocation leads to the file being skipped. -/
theorem c8_skip_counterexample :
    get_duration none = 0 ∧
    (process_file_outcome ["eng"] (some [raw_aac_eng]) none []).2 = 0 ∧
    (process_file_outcome ["eng"] (some [raw_aac_eng]) none []).1 ≠ ProcessAction.skip ∧
    action_invokes_transcoder
      (process_file_outcome ["eng"] (some [raw_aac_eng]) none []).1 = true := by
  decide

/-- C8 (amended): a malformed prober document never raises and degrades to an
empty stream list / zero duration for that query; when it is the audio query
that is malformed, the file is then skipped and the transcoder is never
invoked (a malformed non-audio query degrades but does not by itself cause a
skip). -/
theorem c8_malformed_probe_output_skips (desired : List String)
    (subs : List SubtitleStream) (fmtDoc : Option (Option Nat)) :
    get_audio_streams none = [] ∧
    get_duration none = 0 ∧
    (process_file_outcome desired none fmtDoc subs).1 = ProcessAction.skip ∧
    action_invokes_transcoder (process_file_outcome desired none fmtDoc subs).1 =
      false := by
  exact ⟨rfl, rfl, rfl, rfl⟩

/-- C3: a commentary track (title containing "commentary", "director" or a
Portuguese equivalent) is retained by the audio-filtering step regardless of
its language, and best-stream selection never returns it. -/
theorem c3_commentary_retained_never_best (s : AudioStream) (desired : List String)
    (audio streams : List AudioStream) (hc : is_commentary_track s = true)
    (hs : s ∈ audio) :
    s ∈ filter_audio_streams desired audio ∧
    select_best_stream streams ≠ some s := by
  constructor
  · unfold filter_audio_streams
    split
    · exact List.mem_filter.mpr ⟨hs, by simp [hc]⟩
    · exact hs
  · intro hsel
    unfold select_best_stream at hsel
    have hmem := max_by_key_mem _ _ hsel
    have hnc := selection_pool_not_commentary streams s hmem
    rw [hc] at hnc
    exact Bool.noConfusion hnc

/-- C3 witness: the Japanese commentary track survives filtering to English
and is never selected as the best stream. -/
theorem c3_commentary_witness :
    commentary_stream ∈
      filter_audio_streams ["eng"] [main_eng_stream, commentary_stream] ∧
    select_best_stream [main_eng_stream, commentary_stream] ≠ some commentary_stream :=
  c3_commentary_retained_never_best commentary_stream ["eng"]
    [main_eng_stream, commentary_stream] [main_eng_stream, commentary_stream]
    (by decide) (by decide)

/-- C4: a probed stream whose language tag is absent, empty or "und" is
normalized to language "unknown", matches any allow-list containing
"unknown", and is kept by `filter_streams_by_language` for such a list. -/
theorem c4_missing_language_normalized (tag : Option String)
    (h : tag = none ∨ tag = some "" ∨ tag = some "und")
    (allowed : List String) (hu : "unknown" ∈ allowed)
    (subs : List SubtitleStream) (s : SubtitleStream)
    (hlang : s.language = normalize_language tag) (hs : s ∈ subs) :
    normalize_language tag = "unknown" ∧
    stream_matches allowed (normalize_language tag) = true ∧
    s ∈ filter_streams_by_language allowed subs := by
  have hn : normalize_language tag = "unknown" := by
    rcases h with h | h | h <;> subst h <;> decide
  have hm : stream_matches allowed "unknown" = true := by
    simpa [stream_matches] using hu
  refine ⟨hn, by rw [hn]; exact hm, ?_⟩
  refine List.mem_filter.mpr ⟨hs, ?_⟩
  rw [hlang, hn]
  exact hm

/-- C4 witness: a subtitle stream probed with tag "und" is normalized to
"unknown" and kept by an allow-list containing "unknown". -/
theorem c4_missing_language_witness :
    normalize_language (some "und") = "unknown" ∧
    stream_matches ["eng", "unknown"] (normalize_language (some "und")) = true ∧
    (⟨3, "unknown"⟩ : SubtitleStream) ∈
      filter_streams_by_language ["eng", "unknown"] [⟨3, "unknown"⟩] :=
  c4_missing_language_normalized (some "und") (by simp) ["eng", "unknown"]
    (by simp) [⟨3, "unknown"⟩] ⟨3, "unknown"⟩ (by decide) (by simp)

/-- C5: on a non-empty list of non-commentary candidates, best-stream
selection succeeds, picks from the candidate pool, prefers an existing
AC3/E-AC3 stream whenever one exists, and the pick is lexicographically
maximal in the pool by (channel count, bitrate). -/
theorem c5_best_stream_selection (streams : List AudioStream)
    (hne : streams ≠ [])
    (hnc : ∀ s ∈ streams, is_commentary_track s = false) :
    ∃ b, select_best_stream streams = some b ∧
      b ∈ selection_pool streams ∧
      ((∃ s ∈ streams, ac3_family s = true) → ac3_family b = true) ∧
      ∀ s ∈ selection_pool streams, keyLe (stream_key s) (stream_key b) = true := by
  have hfilter : streams.filter (fun s => ! is_commentary_track s) = streams := by
    rw [List.filter_eq_self]
    intro a ha
    simp [hnc a ha]
  have hpoolne : selection_pool streams ≠ [] := by
    simp only [selection_pool, hfilter]
    split
    · exact hne
    · next hcond =>
      intro hempty
      exact hcond (by simp [hempty])
  obtain ⟨b, hb⟩ := max_by_key_isSome _ hpoolne
  refine ⟨b, hb, max_by_key_mem _ _ hb, ?_, max_by_key_maximal _ _ hb⟩
  rintro ⟨s, hsmem, hsac3⟩
  have hsne : streams.filter ac3_family ≠ [] := by
    intro hemp
    have hsm : s ∈ streams.filter ac3_family := List.mem_filter.mpr ⟨hsmem, hsac3⟩
    rw [hemp] at hsm
    exact absurd hsm (List.not_mem_nil s)
  have hpool : selection_pool streams = streams.filter ac3_family := by
    simp only [selection_pool, hfilter]
    rw [if_neg]
    simp [hsne]
  have hbmem := max_by_key_mem _ _ hb
  rw [hpool] at hbmem
  exact (List.mem_filter.mp hbmem).2

/-- C5 witness: between a lossless DTS stream and an existing AC3 stream, a
best stream exists, lies in the pool, is AC3-family, and is pool-maximal. -/
theorem c5_best_stream_witness :
    ∃ b, select_best_stream [main_eng_stream, eng_ac3_stream] = some b ∧
      b ∈ selection_pool [main_eng_stream, eng_ac3_stream] ∧
      ((∃ s ∈ [main_eng_stream, eng_ac3_stream], ac3_family s = true) →
        ac3_family b = true) ∧
      ∀ s ∈ selection_pool [main_eng_stream, eng_ac3_stream],
        keyLe (stream_key s) (stream_key b) = true :=
  c5_best_stream_selection [main_eng_stream, eng_ac3_stream] (by decide) (by decide)

theorem find?_first_match (p : TmdbVideo → Bool) (pre : List TmdbVideo) (v : TmdbVideo)
    (post : List TmdbVideo) (hpre : ∀ u ∈ pre, p u = false) (hv : p v = true) :
    (pre ++ v :: post).find? p = some v := by
  induction pre with
  | nil => simpa using List.find?_cons_of_pos post hv
  | cons u pre ih =>
    have hu : p u = false := hpre u (List.mem_cons_self u pre)
    rw [List.cons_append, List.find?_cons_of_neg _ (by simp [hu])]
    exact ih (fun x hx => hpre x (List.mem_cons_of_mem u hx))

/-- C9: trailer lookup takes the first search result's movie id, fetches its
videos, and returns the YouTube URL built from the first video in list order
that is a YouTube-hosted trailer with a key; it returns nothing when a
request fails, the search result list is empty, the id is falsy, or no such
video exists. -/
theorem c9_trailer_lookup (w : TmdbWorld) :
    ((w.search_results = none ∨ w.search_results = some []) →
      get_movie_trailer_url w = none) ∧
    (∀ m rest, w.search_results = some (m :: rest) →
      ((m.id = none ∨ m.id = some 0) → get_movie_trailer_url w = none) ∧
      ∀ mid, m.id = some mid → mid ≠ 0 →
        (w.videos mid = none → get_movie_trailer_url w = none) ∧
        ∀ vids, w.videos mid = some vids →
          ((∀ v ∈ vids, is_youtube_trailer v = false) →
            get_movie_trailer_url w = none) ∧
          ∀ pre v post k, vids = pre ++ v :: post →
            (∀ u ∈ pre, is_youtube_trailer u = false) →
            is_youtube_trailer v = true → v.key = some k →
            get_movie_trailer_url w =
              some ("https://www.youtube.com/watch?v=" ++ k)) := by
  constructor
  · rintro (h | h) <;> simp [get_movie_trailer_url, h]
  · intro m rest hsr
    constructor
    · rintro (h | h) <;> simp [get_movie_trailer_url, hsr, h]
    · intro mid hid hmid0
      constructor
      · intro hv
        simp [get_movie_trailer_url, hsr, hid, hmid0, hv]
      · intro vids hvids
        constructor
        · intro hall
          have hnone : vids.find? is_youtube_trailer = none :=
            List.find?_eq_none.mpr (by intro x hx; simp [hall x hx])
          simp [get_movie_trailer_url, hsr, hid, hmid0, hvids, hnone]
        · intro pre v post k hsplit hpre hv hk
          have hfind : vids.find? is_youtube_trailer = some v := by
            rw [hsplit]
            exact find?_first_match _ pre v post hpre hv
          simp [get_movie_trailer_url, hsr, hid, hmid0, hvids, hfind, hk]

/-- C9 witness: on the example world the lookup skips the teaser and returns
the URL of the trailer with key "abc123". -/
theorem c9_trailer_lookup_witness :
    get_movie_trailer_url tmdb_example =
      some ("https://www.youtube.com/watch?v=" ++ "abc123") :=
  ((((c9_trailer_lookup tmdb_example).2 ⟨some 42⟩ [] rfl).2 42 rfl
    (by decide)).2 tmdb_vids rfl).2 [tmdb_teaser] tmdb_trailer [] "abc123" rfl
    (by decide) (by decide) rfl

/-- C10: subtitle streams are filtered by the language allow-list
unconditionally — even on inputs where audio filtering is skipped because no
audio stream matches a known desired language, the subtitle list is reduced
to allow-listed languages while the audio list passes through unchanged. -/
theorem c10_subtitles_filtered_unconditionally (desired : List String)
    (audio : List AudioStream) (subs : List SubtitleStream)
    (h : has_known_desired_lang desired audio = false) :
    (language_filter_stage desired audio subs).1 = audio ∧
    (language_filter_stage desired audio subs).2 =
      subs.filter (fun s => stream_matches desired s.language) ∧
    ∀ s ∈ (language_filter_stage desired audio subs).2,
      stream_matches desired s.language = true := by
  refine ⟨?_, rfl, ?_⟩
  · simp [language_filter_stage, filter_audio_streams, h]
  · intro s hs
    exact (List.mem_filter.mp hs).2

/-- C10 witness: with only a French audio stream (audio filtering skipped),
the French subtitle is still dropped while the audio list is unchanged. -/
theorem c10_subtitles_witness :
    (language_filter_stage ["eng", "unknown"] [french_dts_stream]
      [⟨2, "eng"⟩, ⟨3, "fre"⟩]).1 = [french_dts_stream] ∧
    (language_filter_stage ["eng", "unknown"] [french_dts_stream]
      [⟨2, "eng"⟩, ⟨3, "fre"⟩]).2 =
      List.filter (fun s => stream_matches ["eng", "unknown"] s.language)
        [⟨2, "eng"⟩, ⟨3, "fre"⟩] ∧
    ∀ s ∈ (language_filter_stage ["eng", "unknown"] [french_dts_stream]
      [⟨2, "eng"⟩, ⟨3, "fre"⟩]).2,
      stream_matches ["eng", "unknown"] s.language = true :=
  c10_subtitles_filtered_unconditionally ["eng", "unknown"] [french_dts_stream]
    [⟨2, "eng"⟩, ⟨3, "fre"⟩] (by decide)
